import Mathlib

/-!
# Verification of the efsilonquest feedback-processing pipeline

Shallow embedding of the asynchronous feedback-processing core of the
repository (`src/data_ingestion/tasks.py`, `src/data_ingestion/models.py`,
`src/analysis/models.py`) and proofs of the specification's claims about it.

Modelling conventions:
* Django rows become Lean structures; the database becomes an explicit
  `State` record holding the `RawFeed` rows, the `ProcessedFeedback`
  rows (keyed by owning feedback id), and the list of feedback ids
  submitted to the Celery queue (`process_feedback.delay`).
* `timezone.now()` is the `now : Int` field of the state (epoch seconds);
  `timedelta(days=90)` is `90 * 86400` seconds.
* Python floats in the placeholder analysis are modelled as `ℚ` (all the
  constants involved, 0.6 / 0.1 / 0.95 / 0.5, and the comparisons the
  claims make are exact at these magnitudes).
* `random.random()` (used only for the placeholder embeddings) is modelled
  by threading an explicit stream `rng : Nat → ℚ` of drawn values.
* The annotation section of `process_feedback` (tasks.py lines 109-150)
  is the unit of potential failure per the spec, so `process_feedback`
  is parameterised over an annotator returning `Except String Annot`;
  the concrete placeholder is `placeholderAnnotate` (total, never fails).
* The secondary storage failure discussed by the spec (the save inside
  the `except` block failing) is injected via the `failSaveRaises` flag.
* Celery semantics for `@shared_task(bind=True, max_retries=3)` with
  `raise self.retry(exc=e, countdown=d)`: on an execution with
  `self.request.retries = r`, `retry` schedules a new delayed execution
  when `r + 1 ≤ max_retries` and otherwise re-raises the original
  exception (`MaxRetriesExceededError` path); so a permanently failing
  task body runs at `r = 0, 1, 2, 3`.
* `processing_time` (wall-clock duration) and `time.sleep` are real-time
  effects with no observable consequence in the claims and are omitted.
-/

namespace Efsilonquest

/-- Model of `RawFeed.STATUS_CHOICES` from `src/data_ingestion/models.py`. -/
inductive Status where
  | new
  | processing
  | processed
  | failed
  deriving DecidableEq, Repr

/-- The fields of a `RawFeed` row that the processing pipeline reads or
writes (`src/data_ingestion/models.py`). -/
structure FeedbackItem where
  id : Nat
  text : String
  status : Status
  errorMessage : Option String
  processedAt : Option Int
  deriving DecidableEq, Repr

/-- The fields of a `ProcessedFeedback` row written by `process_feedback`
(`src/analysis/models.py`); `model_version` is the constant
`"placeholder_v1.0"` and `processing_time` is wall-clock metadata, both
omitted. -/
structure Annot where
  sentiment : String
  sentimentScore : ℚ
  topics : List String
  embeddings : List ℚ
  summary : String
  keyPhrases : List String
  deriving DecidableEq, Repr

/-- The database plus the Celery queue: `RawFeed` rows, `ProcessedFeedback`
rows keyed by the owning feedback id (the `OneToOneField raw_feed`), the
ids handed to `process_feedback.delay`, and the current time. -/
structure State where
  items : List FeedbackItem
  annots : List (Nat × Annot)
  queue : List Nat
  now : Int
  deriving DecidableEq, Repr

/-- Model of `RawFeed.objects.get(id=feedback_id)`; `none` models `DoesNotExist`. -/
def getItem (st : State) (fid : Nat) : Option FeedbackItem :=
  st.items.find? (fun it => it.id == fid)

/-- Model of `raw_feed.save(...)`: write the row with this primary key. -/
def saveItem (st : State) (it : FeedbackItem) : State :=
  { st with items := st.items.map (fun o => if o.id == it.id then it else o) }

/-- Model of `ProcessedFeedback.objects.update_or_create(raw_feed=...)`: the
`OneToOneField` is unique, so the write leaves exactly one row keyed by
`fid`. -/
def upsertAnnot (st : State) (fid : Nat) (a : Annot) : State :=
  { st with annots := (fid, a) :: st.annots.filter (fun p => p.1 != fid) }

/-- Number of `ProcessedFeedback` rows referencing feedback `fid`. -/
def annotCount (st : State) (fid : Nat) : Nat :=
  (st.annots.filter (fun p => p.1 == fid)).length

/-- The `ProcessedFeedback` row referencing feedback `fid`, if any. -/
def lookupAnnot (st : State) (fid : Nat) : Option Annot :=
  (st.annots.find? (fun p => p.1 == fid)).map (fun p => p.2)

/-! ## The placeholder annotator (tasks.py lines 109-150) -/

/-- Python's `str.lower()`. On the basic-latin texts involved this agrees
with `String.toLower`; it is defined over the underlying character list
so that concrete evaluation reduces in the kernel (`String.toLower` is
well-founded recursion over byte positions). -/
def pyLower (s : String) : String := ⟨s.data.map Char.toLower⟩

/-- Python's `text[:n]` slice, over the character list. -/
def pyTake (s : String) (n : Nat) : String := ⟨s.data.take n⟩

/-- Python's `len(text)` (code points). -/
def pyLen (s : String) : Nat := s.data.length

/-- Python's `needle in haystack` on strings: substring containment,
computed over the underlying character lists. -/
def strContains (haystack needle : String) : Bool :=
  go haystack.data needle.data
where
  isPre : List Char → List Char → Bool
    | [], _ => true
    | _ :: _, [] => false
    | a :: as, b :: bs => a == b && isPre as bs
  go (hay : List Char) (nd : List Char) : Bool :=
    match hay with
    | [] => nd.isEmpty
    | _ :: rest => isPre nd hay || go rest nd

def positive_words : List String :=
  ["great", "excellent", "amazing", "love", "perfect", "good", "best"]

def negative_words : List String :=
  ["bad", "terrible", "awful", "hate", "worst", "poor", "disappointed"]

/-- Model of `sum(1 for word in words if word in text_lower)`. -/
def keywordCount (words : List String) (textLower : String) : Nat :=
  (words.filter (fun w => strContains textLower w)).length

/-- The placeholder analysis block of `process_feedback` (tasks.py lines
109-150), as a function of the feedback text and the stream of
`random.random()` draws used for the embeddings. -/
def placeholderAnnotate (rng : Nat → ℚ) (text : String) : Annot :=
  let text_lower := pyLower text
  let positive_count := keywordCount positive_words text_lower
  let negative_count := keywordCount negative_words text_lower
  let sentiment : String :=
    if positive_count > negative_count then "positive"
    else if negative_count > positive_count then "negative"
    else "neutral"
  let sentiment_score : ℚ :=
    if positive_count > negative_count then
      min (6/10 + positive_count * (1/10)) (95/100)
    else if negative_count > positive_count then
      min (6/10 + negative_count * (1/10)) (95/100)
    else 1/2
  let topics : List String :=
    (if strContains text_lower "delivery" then ["delivery"] else []) ++
    (if strContains text_lower "quality" || strContains text_lower "product" then
      ["product_quality"] else []) ++
    (if strContains text_lower "price" || strContains text_lower "cost" then
      ["pricing"] else []) ++
    (if strContains text_lower "service" || strContains text_lower "support" then
      ["customer_service"] else [])
  let topics := if topics.isEmpty then ["general"] else topics
  let embeddings : List ℚ := (List.range 10).map rng
  let summary : String :=
    if pyLen text > 150 then pyTake text 150 ++ "..." else text
  { sentiment := sentiment
    sentimentScore := sentiment_score
    topics := topics
    embeddings := embeddings
    summary := summary
    keyPhrases := topics.take 3 }

/-- The placeholder annotator as the pluggable, possibly-failing annotator
interface used by `process_feedback`; the placeholder itself never fails. -/
def placeholderAnnotator (rng : Nat → ℚ) : String → Except String Annot :=
  fun text => Except.ok (placeholderAnnotate rng text)

/-! ## The processing task (tasks.py lines 73-209) -/

/-- The `max_retries=3` bound of `@shared_task(bind=True, max_retries=3)`. -/
def max_retries : Nat := 3

/-- Model of `retry_delay = 60 * (2 ** self.request.retries)` (tasks.py line 208). -/
def retryDelay (retries : Nat) : Nat := 60 * 2 ^ retries

/-- The observable outcome of one execution of `process_feedback`:
a success return, the not-found error return, a `self.retry` that
scheduled a delayed re-execution with the given countdown, or a
`self.retry` that raised because `max_retries` was exhausted. -/
inductive ExecOutcome where
  | success (fid : Nat)
  | notFound
  | retryScheduled (countdown : Nat) (msg : String)
  | retriesExceeded (msg : String)
  deriving DecidableEq, Repr

/-- One execution of `process_feedback(self, feedback_id)` with
`self.request.retries = retries`. Parameters: `annot` is the annotation
step (the placeholder in the source; the spec's unit of potential
failure), and `failSaveRaises` injects a storage error into the
`raw_feed.save` inside the `except` block (swallowed by the bare
`except: pass`). Returns the outcome and the post-state. -/
def process_feedback (annot : String → Except String Annot)
    (failSaveRaises : Bool) (st : State) (feedback_id : Nat) (retries : Nat) :
    ExecOutcome × State :=
  match getItem st feedback_id with
  | none => (ExecOutcome.notFound, st)
  | some raw_feed =>
    -- raw_feed.status = 'processing'; raw_feed.save(update_fields=['status'])
    let st1 := saveItem st { raw_feed with status := Status.processing }
    match annot raw_feed.text with
    | Except.ok a =>
      -- transaction.atomic(): upsert ProcessedFeedback, then
      -- status = 'processed', processed_at = timezone.now()
      let st2 := upsertAnnot st1 feedback_id a
      let st3 := saveItem st2
        { raw_feed with status := Status.processed, processedAt := some st.now }
      (ExecOutcome.success feedback_id, st3)
    | Except.error e =>
      -- except block: refetch, set status='failed'/error_message, save;
      -- any exception there is swallowed by the bare `except: pass`
      let st2 :=
        if failSaveRaises then st1
        else
          match getItem st1 feedback_id with
          | none => st1
          | some rf =>
            saveItem st1
              { rf with status := Status.failed, errorMessage := some e }
      if retries + 1 ≤ max_retries then
        (ExecOutcome.retryScheduled (retryDelay retries) e, st2)
      else
        (ExecOutcome.retriesExceeded e, st2)

/-- The trace of driving one submitted task to completion under Celery's
retry mechanism: how many times the task body ran, the countdowns of the
scheduled retries, and the final state. -/
structure DriveResult where
  execs : Nat
  delays : List Nat
  final : State
  deriving DecidableEq, Repr

/-- Celery's worker loop for one task: execute `process_feedback`; if the
execution ended in `self.retry` scheduling a delayed re-execution, run it
again with the retry counter incremented. `fuel` bounds the recursion (any
value above `max_retries + 1` is enough, since `retry` stops scheduling
then). -/
def driveTask (annot : String → Except String Annot) (failSaveRaises : Bool)
    (fuel : Nat) (st : State) (fid : Nat) (retries : Nat) : DriveResult :=
  match fuel with
  | 0 => ⟨0, [], st⟩
  | Nat.succ fuel =>
    match process_feedback annot failSaveRaises st fid retries with
    | (ExecOutcome.retryScheduled d _, st') =>
      let r := driveTask annot failSaveRaises fuel st' fid (retries + 1)
      ⟨r.execs + 1, d :: r.delays, r.final⟩
    | (_, st') => ⟨1, [], st'⟩

/-! ## The sweepers (tasks.py lines 249-362) -/

/-- Model of `process_pending_feedbacks` (tasks.py lines 249-283): enqueue up to
100 items with status `new`; touches nothing else. -/
def process_pending_feedbacks (st : State) : State :=
  let pending := (st.items.filter (fun it => it.status == Status.new)).take 100
  { st with queue := st.queue ++ pending.map (fun it => it.id) }

/-- Model of `reprocess_failed_feedbacks` (tasks.py lines 290-327): every item with
status `failed` is reset to `new` with `error_message = None`, saved, and
submitted via `process_feedback.delay`. -/
def reprocess_failed_feedbacks (st : State) : State :=
  let failedItems := st.items.filter (fun it => it.status == Status.failed)
  let reset := fun (it : FeedbackItem) =>
    if it.status == Status.failed then
      { it with status := Status.new, errorMessage := none }
    else it
  { st with
    items := st.items.map reset,
    queue := st.queue ++ failedItems.map (fun it => it.id) }

/-- Model of `timedelta(days=90)` in seconds. -/
def RETENTION_SECONDS : Int := 90 * 86400

/-- The filter `status='processed', processed_at__lt=cutoff_date` of
`cleanup_old_feedbacks` (a SQL `NULL` never satisfies `__lt`). -/
def isOldProcessed (cutoff : Int) (it : FeedbackItem) : Bool :=
  it.status == Status.processed &&
    (match it.processedAt with
     | some t => decide (t < cutoff)
     | none => false)

/-- Model of `cleanup_old_feedbacks` (tasks.py lines 330-362): delete the processed
items whose `processed_at` is strictly before `now - 90 days`; their
`ProcessedFeedback` rows cascade (`on_delete=CASCADE`). -/
def cleanup_old_feedbacks (st : State) : State :=
  let cutoff := st.now - RETENTION_SECONDS
  let deletedIds := (st.items.filter (isOldProcessed cutoff)).map (fun it => it.id)
  { st with
    items := st.items.filter (fun it => !(isOldProcessed cutoff it)),
    annots := st.annots.filter (fun p => !(deletedIds.contains p.1)) }

/-- The operations of the pipeline that touch the store: one `Execute`
(with any annotator outcome, any retry counter, and optionally the
injected secondary save failure), the failed-retry sweep, the purge
sweep, and the pending sweep. -/
inductive Op where
  | execute (annot : String → Except String Annot) (failSaveRaises : Bool)
      (fid retries : Nat)
  | failedSweep
  | purgeSweep
  | pendingSweep

def applyOp : Op → State → State
  | Op.execute annot fs fid r, st => (process_feedback annot fs st fid r).2
  | Op.failedSweep, st => reprocess_failed_feedbacks st
  | Op.purgeSweep, st => cleanup_old_feedbacks st
  | Op.pendingSweep, st => process_pending_feedbacks st

/-- The spec's consistency invariant: a processed item has exactly one
annotation and a processed timestamp; a failed item has an error
message. -/
def Inv (st : State) : Prop :=
  ∀ it ∈ st.items,
    (it.status = Status.processed →
      annotCount st it.id = 1 ∧ it.processedAt ≠ none) ∧
    (it.status = Status.failed → it.errorMessage ≠ none)

/-- Database well-formedness: primary keys are unique. -/
def WF (st : State) : Prop := (st.items.map (fun it => it.id)).Nodup

/-! ## Concrete fixtures used by witnesses and counterexamples -/

/-- A permanently failing annotator (the spec's annotator outage). -/
def downAnnot : String → Except String Annot :=
  fun _ => Except.error "annotator down"

def zeroRng : Nat → ℚ := fun _ => 0

def oneRng : Nat → ℚ := fun _ => 1

def itemW : FeedbackItem :=
  { id := 1, text := "some feedback", status := Status.new,
    errorMessage := none, processedAt := none }

def stW : State := { items := [itemW], annots := [], queue := [], now := 1000 }

def stEmpty : State := { items := [], annots := [], queue := [], now := 0 }

def sampleText : String := "Excellent product, fast delivery"

def itemS : FeedbackItem :=
  { id := 2, text := sampleText, status := Status.new,
    errorMessage := none, processedAt := none }

def stS : State := { items := [itemS], annots := [], queue := [], now := 500 }

/-- A purge fixture: `now` is chosen so that the retention cutoff is
exactly 100. -/
def purgeNow : Int := 90 * 86400 + 100

/-- Processed exactly at the retention cutoff. -/
def itemCut : FeedbackItem :=
  { id := 3, text := "at cutoff", status := Status.processed,
    errorMessage := none, processedAt := some 100 }

/-- Processed one second before the retention cutoff. -/
def itemOld : FeedbackItem :=
  { id := 4, text := "one second older", status := Status.processed,
    errorMessage := none, processedAt := some 99 }

/-- An ancient failed item (never purged). -/
def itemFld : FeedbackItem :=
  { id := 5, text := "ancient failure", status := Status.failed,
    errorMessage := some "boom", processedAt := some 0 }

def stP : State :=
  { items := [itemCut, itemOld, itemFld], annots := [], queue := [],
    now := purgeNow }

/-! ## Helper lemmas about the store operations -/

theorem getItem_id {st : State} {fid : Nat} {it : FeedbackItem}
    (h : getItem st fid = some it) : it.id = fid := by
  have := List.find?_some h
  simpa using this

theorem find?_map_replace (l : List FeedbackItem) (fid : Nat)
    (it it' : FeedbackItem)
    (h : l.find? (fun x => x.id == fid) = some it) (hid : it'.id = fid) :
    (l.map (fun o => if o.id == it'.id then it' else o)).find?
      (fun x => x.id == fid) = some it' := by
  induction l with
  | nil => simp at h
  | cons a l ih =>
    by_cases ha : a.id = fid
    · simp [List.find?_cons, ha, hid]
    · rw [List.find?_cons_of_neg _ (by simpa using ha)] at h
      simp only [List.map_cons]
      rw [List.find?_cons_of_neg _ (by simp [hid, ha])]
      exact ih h

theorem getItem_saveItem {st : State} {fid : Nat} {it : FeedbackItem}
    (it' : FeedbackItem) (h : getItem st fid = some it) (hid : it'.id = fid) :
    getItem (saveItem st it') fid = some it' :=
  find?_map_replace st.items fid it it' h hid

theorem getItem_upsertAnnot (st : State) (fid fid' : Nat) (a : Annot) :
    getItem (upsertAnnot st fid' a) fid = getItem st fid := rfl

theorem lookupAnnot_upsertAnnot (st : State) (fid : Nat) (a : Annot) :
    lookupAnnot (upsertAnnot st fid a) fid = some a := by
  simp [lookupAnnot, upsertAnnot, List.find?_cons]

theorem annots_saveItem (st : State) (it : FeedbackItem) :
    (saveItem st it).annots = st.annots := rfl

theorem filter_key_filter_ne (l : List (Nat × Annot)) (fid : Nat) :
    (l.filter (fun p => p.1 != fid)).filter (fun p => p.1 == fid) = [] := by
  induction l with
  | nil => rfl
  | cons a l ih =>
    by_cases ha : a.1 = fid <;> simp [List.filter_cons, ha, ih]

theorem annotCount_upsertAnnot_self (st : State) (fid : Nat) (a : Annot) :
    annotCount (upsertAnnot st fid a) fid = 1 := by
  simp [annotCount, upsertAnnot, List.filter_cons, filter_key_filter_ne]

theorem filter_key_filter_other (l : List (Nat × Annot)) (fid fid' : Nat)
    (h : fid' ≠ fid) :
    (l.filter (fun p => p.1 != fid')).filter (fun p => p.1 == fid)
      = l.filter (fun p => p.1 == fid) := by
  induction l with
  | nil => rfl
  | cons p l ih =>
    by_cases hp : p.1 = fid'
    · rw [List.filter_cons_of_neg (by simp [hp]),
        List.filter_cons_of_neg (by simp [hp, h]), ih]
    · rw [List.filter_cons_of_pos (by simpa using hp)]
      by_cases hq : p.1 = fid
      · rw [List.filter_cons_of_pos (by simpa using hq),
          List.filter_cons_of_pos (by simpa using hq), ih]
      · rw [List.filter_cons_of_neg (by simpa using hq),
          List.filter_cons_of_neg (by simpa using hq), ih]

theorem annotCount_upsertAnnot_other (st : State) (fid fid' : Nat) (a : Annot)
    (h : fid' ≠ fid) :
    annotCount (upsertAnnot st fid' a) fid = annotCount st fid := by
  simp only [annotCount, upsertAnnot]
  rw [List.filter_cons_of_neg (by simpa using h), filter_key_filter_other _ _ _ h]

/-! ## Step lemmas for one execution of process_feedback -/

theorem process_feedback_ok (annot : String → Except String Annot)
    (failSave : Bool) (st : State) (fid retries : Nat)
    (it : FeedbackItem) (a : Annot)
    (hit : getItem st fid = some it) (ha : annot it.text = Except.ok a) :
    process_feedback annot failSave st fid retries =
      (ExecOutcome.success fid,
       saveItem (upsertAnnot (saveItem st { it with status := Status.processing })
           fid a)
         { it with status := Status.processed, processedAt := some st.now }) := by
  simp [process_feedback, hit, ha]

theorem process_feedback_err (annot : String → Except String Annot)
    (st : State) (fid retries : Nat) (it : FeedbackItem) (e : String)
    (hit : getItem st fid = some it) (ha : annot it.text = Except.error e) :
    process_feedback annot false st fid retries =
      (if retries + 1 ≤ max_retries then
         ExecOutcome.retryScheduled (retryDelay retries) e
       else ExecOutcome.retriesExceeded e,
       saveItem (saveItem st { it with status := Status.processing })
         { it with status := Status.failed, errorMessage := some e }) := by
  have hid : it.id = fid := getItem_id hit
  have h1 : getItem (saveItem st { it with status := Status.processing }) fid
      = some { it with status := Status.processing } :=
    getItem_saveItem _ hit hid
  simp only [process_feedback, hit, ha, h1]
  split <;> rfl

theorem process_feedback_err_failSave (annot : String → Except String Annot)
    (st : State) (fid retries : Nat) (it : FeedbackItem) (e : String)
    (hit : getItem st fid = some it) (ha : annot it.text = Except.error e) :
    process_feedback annot true st fid retries =
      (if retries + 1 ≤ max_retries then
         ExecOutcome.retryScheduled (retryDelay retries) e
       else ExecOutcome.retriesExceeded e,
       saveItem st { it with status := Status.processing }) := by
  simp only [process_feedback, hit, ha]
  split <;> rfl

/-! ## One-step unfolding of the worker loop -/

theorem driveTask_succ (annot : String → Except String Annot) (fs : Bool)
    (fuel : Nat) (st : State) (fid retries : Nat) :
    driveTask annot fs (fuel + 1) st fid retries =
      (match process_feedback annot fs st fid retries with
       | (ExecOutcome.retryScheduled d _, st') =>
         let r := driveTask annot fs fuel st' fid (retries + 1)
         ⟨r.execs + 1, d :: r.delays, r.final⟩
       | (_, st') => ⟨1, [], st'⟩) := rfl

/-- The state after one failing attempt (status set to `processing`, then
the `except` block stores `failed` and the message). -/
theorem fail_state_getItem (st : State) (fid : Nat) (it : FeedbackItem)
    (e : String) (hit : getItem st fid = some it) :
    getItem (saveItem (saveItem st { it with status := Status.processing })
        { it with status := Status.failed, errorMessage := some e }) fid
      = some { it with status := Status.failed, errorMessage := some e } := by
  have hid : it.id = fid := getItem_id hit
  exact getItem_saveItem _ (getItem_saveItem _ hit hid) hid

theorem driveTask_err_step (annot : String → Except String Annot)
    (fuel : Nat) (st : State) (fid retries : Nat) (it : FeedbackItem)
    (e : String) (hit : getItem st fid = some it)
    (ha : annot it.text = Except.error e)
    (hr : retries + 1 ≤ max_retries) :
    driveTask annot false (fuel + 1) st fid retries =
      (fun r : DriveResult => ⟨r.execs + 1, retryDelay retries :: r.delays, r.final⟩)
        (driveTask annot false fuel
          (saveItem (saveItem st { it with status := Status.processing })
            { it with status := Status.failed, errorMessage := some e })
          fid (retries + 1)) := by
  rw [driveTask_succ, process_feedback_err annot st fid retries it e hit ha,
    if_pos hr]

theorem driveTask_err_last (annot : String → Except String Annot)
    (fuel : Nat) (st : State) (fid retries : Nat) (it : FeedbackItem)
    (e : String) (hit : getItem st fid = some it)
    (ha : annot it.text = Except.error e)
    (hr : ¬(retries + 1 ≤ max_retries)) :
    driveTask annot false (fuel + 1) st fid retries =
      ⟨1, [],
        saveItem (saveItem st { it with status := Status.processing })
          { it with status := Status.failed, errorMessage := some e }⟩ := by
  rw [driveTask_succ, process_feedback_err annot st fid retries it e hit ha,
    if_neg hr]

/-! ## The claims -/

/-- C9: if the FeedbackItem referenced by `feedback_id` does not exist when
`process_feedback` executes, the task terminates with the not-found error
report, schedules no retry, and leaves the store unchanged. -/
theorem execute_notfound_no_op (annot : String → Except String Annot)
    (failSaveRaises : Bool) (st : State) (fid retries : Nat)
    (h : getItem st fid = none) :
    process_feedback annot failSaveRaises st fid retries
      = (ExecOutcome.notFound, st) := by
  simp [process_feedback, h]

/-- Witness for C9 at the empty store. -/
theorem execute_notfound_no_op_witness :
    getItem stEmpty 1 = none ∧
    process_feedback downAnnot false stEmpty 1 0
      = (ExecOutcome.notFound, stEmpty) :=
  ⟨rfl, execute_notfound_no_op downAnnot false stEmpty 1 0 rfl⟩

/-- C2 counterexample: on the very first failing attempt, with retries
remaining (a retry with countdown 60 is scheduled), the stored status is
already `failed`, not `processing`. -/
theorem processing_during_delay_counterexample :
    (process_feedback downAnnot false stW 1 0).1
      = ExecOutcome.retryScheduled 60 "annotator down" ∧
    getItem (process_feedback downAnnot false stW 1 0).2 1
      = some { id := 1, text := "some feedback", status := Status.failed,
               errorMessage := some "annotator down", processedAt := none } ∧
    Status.failed ≠ Status.processing := by decide

/-- C2 (amended): on every failing `Execute` attempt (except not-found) the
item's stored status becomes `failed` with the error message — also when
retry attempts remain, in which case a retry is scheduled with countdown
`60 * 2 ^ retries`; the attempt that exhausts the bound leaves the same
stored `failed` status and raises instead of scheduling. -/
theorem failure_stores_failed (annot : String → Except String Annot)
    (st : State) (fid retries : Nat) (it : FeedbackItem) (e : String)
    (hit : getItem st fid = some it) (ha : annot it.text = Except.error e) :
    (∃ it', getItem (process_feedback annot false st fid retries).2 fid
        = some it' ∧ it'.status = Status.failed ∧ it'.errorMessage = some e) ∧
    (retries + 1 ≤ max_retries →
      (process_feedback annot false st fid retries).1
        = ExecOutcome.retryScheduled (retryDelay retries) e) ∧
    (max_retries < retries + 1 →
      (process_feedback annot false st fid retries).1
        = ExecOutcome.retriesExceeded e) := by
  rw [process_feedback_err annot st fid retries it e hit ha]
  refine ⟨⟨{ it with status := Status.failed, errorMessage := some e },
    fail_state_getItem st fid it e hit, rfl, rfl⟩, ?_, ?_⟩
  · intro hr
    simp [if_pos hr]
  · intro hr
    simp [if_neg (Nat.not_le.mpr hr)]

/-- Witness for C2's amended theorem at a one-item store. -/
theorem failure_stores_failed_witness :
    ∃ it', getItem (process_feedback downAnnot false stW 1 0).2 1
        = some it' ∧ it'.status = Status.failed ∧
        it'.errorMessage = some "annotator down" :=
  (failure_stores_failed downAnnot stW 1 0 itemW "annotator down" rfl rfl).1

/-- C1 counterexample: with a permanently failing annotator the task body
runs 4 times (the initial attempt plus `max_retries = 3` retries), not 3;
the scheduled delays are 60, 120, 240 seconds. -/
theorem retry_runs_counterexample :
    (driveTask downAnnot false 10 stW 1 0).execs = 4 ∧
    (driveTask downAnnot false 10 stW 1 0).execs ≠ 3 ∧
    (driveTask downAnnot false 10 stW 1 0).delays = [60, 120, 240] := by
  decide

/-- C1 (amended): for an existing item whose annotation step raises on
every attempt, `process_feedback` is run exactly 4 times in total (the
initial execution plus 3 retries); the delays scheduled before the three
retries are `60 * 2 ^ k` = 60, 120, 240 seconds; afterwards (any surplus
fuel) no further execution happens and the item rests at status `failed`
with an error message set. -/
theorem retry_bound_four_runs (annot : String → Except String Annot)
    (st : State) (fid : Nat) (it : FeedbackItem) (fuel : Nat)
    (hit : getItem st fid = some it)
    (hfail : ∀ t, ∃ e, annot t = Except.error e) :
    (driveTask annot false (fuel + 4) st fid 0).execs = 4 ∧
    (driveTask annot false (fuel + 4) st fid 0).delays = [60, 120, 240] ∧
    ∃ it', getItem (driveTask annot false (fuel + 4) st fid 0).final fid
        = some it' ∧ it'.status = Status.failed ∧ it'.errorMessage ≠ none := by
  obtain ⟨e, he⟩ := hfail it.text
  have htext : FeedbackItem.text
      { it with status := Status.failed, errorMessage := some e } = it.text := rfl
  have h1 := fail_state_getItem st fid it e hit
  set st1 := saveItem (saveItem st { it with status := Status.processing })
    { it with status := Status.failed, errorMessage := some e } with hst1
  set it1 : FeedbackItem := { it with status := Status.failed, errorMessage := some e } with hit1
  have he1 : annot it1.text = Except.error e := he
  have h2 := fail_state_getItem st1 fid it1 e h1
  set st2 := saveItem (saveItem st1 { it1 with status := Status.processing })
    { it1 with status := Status.failed, errorMessage := some e } with hst2
  have hsame : ({ it1 with status := Status.failed, errorMessage := some e }
      : FeedbackItem) = it1 := rfl
  rw [hsame] at h2
  have h3 := fail_state_getItem st2 fid it1 e h2
  set st3 := saveItem (saveItem st2 { it1 with status := Status.processing })
    { it1 with status := Status.failed, errorMessage := some e } with hst3
  rw [hsame] at h3
  have step1 := driveTask_err_step annot (fuel + 3) st fid 0 it e hit he
    (by decide)
  have step2 := driveTask_err_step annot (fuel + 2) st1 fid 1 it1 e h1 he1
    (by decide)
  have step3 := driveTask_err_step annot (fuel + 1) st2 fid 2 it1 e h2 he1
    (by decide)
  have step4 := driveTask_err_last annot fuel st3 fid 3 it1 e h3 he1
    (by decide)
  rw [show fuel + 4 = (fuel + 3) + 1 from rfl, step1]
  rw [show fuel + 3 = (fuel + 2) + 1 from rfl] at step2 ⊢
  rw [step2, step3, step4]
  have h4 := fail_state_getItem st3 fid it1 e h3
  rw [hsame] at h4
  refine ⟨rfl, rfl, it1, ?_, rfl, by simp [hit1]⟩
  simpa using h4
/-- Witness for C1's amended theorem at the concrete one-item store. -/
theorem retry_bound_four_runs_witness :
    (driveTask downAnnot false (6 + 4) stW 1 0).execs = 4 ∧
    (driveTask downAnnot false (6 + 4) stW 1 0).delays = [60, 120, 240] ∧
    ∃ it', getItem (driveTask downAnnot false (6 + 4) stW 1 0).final 1
        = some it' ∧ it'.status = Status.failed ∧ it'.errorMessage ≠ none :=
  retry_bound_four_runs downAnnot stW 1 itemW 6 rfl
    (fun _ => ⟨"annotator down", rfl⟩)

/-- C10: when the annotation step raises and the write that records
status='failed' itself raises, the secondary exception is swallowed by the
bare `except: pass` and a retry is still scheduled with the same backoff
countdown `60 * 2 ^ retries` — while the stored status remains
`processing`, never having been updated to `failed`. -/
theorem suppressed_save_failure (annot : String → Except String Annot)
    (st : State) (fid retries : Nat) (it : FeedbackItem) (e : String)
    (hit : getItem st fid = some it) (ha : annot it.text = Except.error e)
    (hr : retries + 1 ≤ max_retries) :
    (process_feedback annot true st fid retries).1
      = ExecOutcome.retryScheduled (retryDelay retries) e ∧
    ∃ it', getItem (process_feedback annot true st fid retries).2 fid
        = some it' ∧ it'.status = Status.processing ∧
        it'.status ≠ Status.failed ∧ it'.errorMessage = it.errorMessage := by
  have hid : it.id = fid := getItem_id hit
  rw [process_feedback_err_failSave annot st fid retries it e hit ha, if_pos hr]
  exact ⟨rfl, { it with status := Status.processing },
    getItem_saveItem _ hit hid, rfl, by simp, rfl⟩

/-- Witness for C10 at the concrete one-item store. -/
theorem suppressed_save_failure_witness :
    (process_feedback downAnnot true stW 1 0).1
      = ExecOutcome.retryScheduled (retryDelay 0) "annotator down" ∧
    ∃ it', getItem (process_feedback downAnnot true stW 1 0).2 1
        = some it' ∧ it'.status = Status.processing ∧
        it'.status ≠ Status.failed ∧ it'.errorMessage = itemW.errorMessage :=
  suppressed_save_failure downAnnot stW 1 0 itemW "annotator down" rfl rfl
    (by decide)

/-- What one successful execution (placeholder annotator, which never
fails) does to the store: success result, exactly one annotation row for
the id holding the placeholder's output, and the item stored as
processed with the timestamp set. -/
theorem execute_ok_spec (rng : Nat → ℚ) (st : State) (fid retries : Nat)
    (it : FeedbackItem) (hit : getItem st fid = some it) :
    (process_feedback (placeholderAnnotator rng) false st fid retries).1
      = ExecOutcome.success fid ∧
    annotCount (process_feedback (placeholderAnnotator rng) false st fid retries).2 fid
      = 1 ∧
    lookupAnnot (process_feedback (placeholderAnnotator rng) false st fid retries).2 fid
      = some (placeholderAnnotate rng it.text) ∧
    getItem (process_feedback (placeholderAnnotator rng) false st fid retries).2 fid
      = some { it with status := Status.processed, processedAt := some st.now } := by
  have hid : it.id = fid := getItem_id hit
  rw [process_feedback_ok (placeholderAnnotator rng) false st fid retries it
    (placeholderAnnotate rng it.text) hit rfl]
  refine ⟨rfl, annotCount_upsertAnnot_self _ fid _,
    lookupAnnot_upsertAnnot _ fid _, ?_⟩
  have h0 : getItem (upsertAnnot (saveItem st { it with status := Status.processing })
      fid (placeholderAnnotate rng it.text)) fid
      = some { it with status := Status.processing } :=
    getItem_saveItem _ hit hid
  exact getItem_saveItem _ h0 hid

/-- C4: running Execute twice in sequence on an existing id leaves exactly
one Annotation row for the item (the second run replaces the fields of the
same keyed record, it does not create a second row) and leaves the item in
the same consistent final status as a single successful run:
status='processed' with the processed timestamp set. -/
theorem execute_twice_idempotent (rng1 rng2 : Nat → ℚ) (st : State)
    (fid : Nat) (it : FeedbackItem) (hit : getItem st fid = some it) :
    annotCount (process_feedback (placeholderAnnotator rng2) false
        (process_feedback (placeholderAnnotator rng1) false st fid 0).2
        fid 0).2 fid = 1 ∧
    (∃ it1, getItem (process_feedback (placeholderAnnotator rng1) false st fid 0).2 fid
        = some it1 ∧ it1.status = Status.processed) ∧
    (∃ it2, getItem (process_feedback (placeholderAnnotator rng2) false
          (process_feedback (placeholderAnnotator rng1) false st fid 0).2
          fid 0).2 fid
        = some it2 ∧ it2.status = Status.processed ∧ it2.processedAt ≠ none) := by
  obtain ⟨-, -, -, hget1⟩ := execute_ok_spec rng1 st fid 0 it hit
  obtain ⟨-, hcount2, -, hget2⟩ := execute_ok_spec rng2 _ fid 0 _ hget1
  exact ⟨hcount2, ⟨_, hget1, rfl⟩, ⟨_, hget2, rfl, by simp⟩⟩

/-- Witness for C4 at the concrete one-item store. -/
theorem execute_twice_idempotent_witness :
    annotCount (process_feedback (placeholderAnnotator oneRng) false
        (process_feedback (placeholderAnnotator zeroRng) false stW 1 0).2
        1 0).2 1 = 1 :=
  (execute_twice_idempotent zeroRng oneRng stW 1 itemW rfl).1

/-! ## Evaluation of the placeholder on the spec's example text -/

theorem sample_sentiment (rng : Nat → ℚ) :
    (placeholderAnnotate rng sampleText).sentiment = "positive" := rfl

theorem sample_score (rng : Nat → ℚ) :
    (placeholderAnnotate rng sampleText).sentimentScore = 7/10 := by
  have h : (placeholderAnnotate rng sampleText).sentimentScore
      = min ((6 : ℚ)/10 + (1 : ℕ) * (1/10)) (95/100) := rfl
  rw [h, min_eq_left (by push_cast; norm_num)]
  push_cast
  norm_num

theorem sample_topics (rng : Nat → ℚ) :
    (placeholderAnnotate rng sampleText).topics
      = ["delivery", "product_quality"] := rfl

theorem sample_summary (rng : Nat → ℚ) :
    (placeholderAnnotate rng sampleText).summary = sampleText := rfl

/-- C6: for a FeedbackItem with text "Excellent product, fast delivery"
and status=new, a successful Execute produces an Annotation with
sentiment='positive', score within [0.6, 0.95], topics containing
'delivery' and summary equal to the original text, and leaves the item
processed. -/
theorem positive_scenario (rng : Nat → ℚ) (st : State) (fid : Nat)
    (it : FeedbackItem) (hit : getItem st fid = some it)
    (htext : it.text = sampleText) (hnew' : it.status = Status.new) :
    (process_feedback (placeholderAnnotator rng) false st fid 0).1
      = ExecOutcome.success fid ∧
    (∃ a, lookupAnnot (process_feedback (placeholderAnnotator rng) false st fid 0).2 fid
        = some a ∧ a.sentiment = "positive" ∧
        3/5 ≤ a.sentimentScore ∧ a.sentimentScore ≤ 19/20 ∧
        "delivery" ∈ a.topics ∧ a.summary = it.text) ∧
    (∃ it', getItem (process_feedback (placeholderAnnotator rng) false st fid 0).2 fid
        = some it' ∧ it'.status = Status.processed) := by
  obtain ⟨hres, -, hlook, hget⟩ := execute_ok_spec rng st fid 0 it hit
  refine ⟨hres, ⟨placeholderAnnotate rng it.text, hlook, ?_, ?_, ?_, ?_, ?_⟩,
    ⟨_, hget, rfl⟩⟩
  · rw [htext]
    exact sample_sentiment rng
  · rw [htext, sample_score rng]
    norm_num
  · rw [htext, sample_score rng]
    norm_num
  · rw [htext, sample_topics rng]
    simp
  · rw [htext, sample_summary rng]

/-- Witness for C6 at a concrete store holding the example item. -/
theorem positive_scenario_witness :
    ∃ a, lookupAnnot (process_feedback (placeholderAnnotator zeroRng) false stS 2 0).2 2
        = some a ∧ a.sentiment = "positive" ∧
        3/5 ≤ a.sentimentScore ∧ a.sentimentScore ≤ 19/20 ∧
        "delivery" ∈ a.topics ∧ a.summary = itemS.text :=
  (positive_scenario zeroRng stS 2 itemS rfl rfl rfl).2.1

/-- C5 counterexample: two runs of the annotation step on the same text
but with different random draws produce different outputs (the embeddings
differ), so the step is not a pure function of the text. -/
theorem annotator_not_pure_counterexample :
    placeholderAnnotate zeroRng "sample feedback"
      ≠ placeholderAnnotate oneRng "sample feedback" := by
  intro h
  have h2 : ((List.range 10).map zeroRng) = ((List.range 10).map oneRng) :=
    congrArg Annot.embeddings h
  have h3 : some (0 : ℚ) = some (1 : ℚ) := congrArg List.head? h2
  exact absurd (Option.some.inj h3) (by norm_num)

/-- C5 (amended): the annotation step is deterministic in the feedback
text in every field except the embeddings — equal input text gives equal
sentiment, score, topics, summary and key phrases; only the embeddings
depend on the fresh random draws of the run. -/
theorem annotator_pure_except_embeddings (r1 r2 : Nat → ℚ) (t : String) :
    (placeholderAnnotate r1 t).sentiment = (placeholderAnnotate r2 t).sentiment ∧
    (placeholderAnnotate r1 t).sentimentScore
      = (placeholderAnnotate r2 t).sentimentScore ∧
    (placeholderAnnotate r1 t).topics = (placeholderAnnotate r2 t).topics ∧
    (placeholderAnnotate r1 t).summary = (placeholderAnnotate r2 t).summary ∧
    (placeholderAnnotate r1 t).keyPhrases = (placeholderAnnotate r2 t).keyPhrases :=
  ⟨rfl, rfl, rfl, rfl, rfl⟩

/-- C7: the purge sweep deletes exactly the items that are processed with
a processed timestamp strictly older than now minus 90 days: an item at
the cutoff exactly is kept, a strictly older one is deleted, and items in
status new/processing/failed are never deleted; the sweep adds no items. -/
theorem purge_boundary (st : State) (it : FeedbackItem) (hit : it ∈ st.items) :
    (it ∈ (cleanup_old_feedbacks st).items ↔
      ¬(it.status = Status.processed ∧
        ∃ t, it.processedAt = some t ∧ t < st.now - RETENTION_SECONDS)) ∧
    (∀ x ∈ (cleanup_old_feedbacks st).items, x ∈ st.items) := by
  constructor
  · rw [show (cleanup_old_feedbacks st).items
        = st.items.filter
            (fun x => !(isOldProcessed (st.now - RETENTION_SECONDS) x)) from rfl]
    rw [List.mem_filter]
    simp only [hit, true_and, Bool.not_eq_true']
    unfold isOldProcessed
    cases hpa : it.processedAt with
    | none => simp
    | some t => by_cases hs : it.status = Status.processed <;> simp [hs]
  · intro x hx
    exact (List.mem_filter.mp hx).1

/-- Witness for C7 at the purge fixture: the item exactly at the cutoff
is kept, the one-second-older item is deleted, the failed item is kept. -/
theorem purge_boundary_witness :
    (itemCut ∈ (cleanup_old_feedbacks stP).items ↔
      ¬(itemCut.status = Status.processed ∧
        ∃ t, itemCut.processedAt = some t ∧ t < stP.now - RETENTION_SECONDS)) ∧
    itemCut ∈ (cleanup_old_feedbacks stP).items ∧
    itemOld ∉ (cleanup_old_feedbacks stP).items ∧
    itemFld ∈ (cleanup_old_feedbacks stP).items :=
  ⟨(purge_boundary stP itemCut (by decide)).1, by decide, by decide, by decide⟩

/-- C8: one invocation of the failed-retry sweep resets every failed item
to status 'new' with the error message cleared and submits its id for
processing, leaves every item that is not failed untouched, produces no
other items, and submits exactly N ids where N is the number of failed
items. -/
theorem failed_sweep_resets (st : State) :
    (∀ it ∈ st.items, it.status = Status.failed →
      ({ it with status := Status.new, errorMessage := none } : FeedbackItem)
          ∈ (reprocess_failed_feedbacks st).items ∧
        it.id ∈ (reprocess_failed_feedbacks st).queue) ∧
    (∀ it ∈ st.items, it.status ≠ Status.failed →
      it ∈ (reprocess_failed_feedbacks st).items) ∧
    (∀ x ∈ (reprocess_failed_feedbacks st).items,
      x ∈ st.items ∨ ∃ it, it ∈ st.items ∧ it.status = Status.failed ∧
        x = { it with status := Status.new, errorMessage := none }) ∧
    (reprocess_failed_feedbacks st).queue.length = st.queue.length +
      (st.items.filter (fun it => it.status == Status.failed)).length := by
  refine ⟨?_, ?_, ?_, ?_⟩
  · intro it hmem hf
    constructor
    · have h1 := List.mem_map_of_mem (fun o : FeedbackItem =>
        if o.status == Status.failed then
          { o with status := Status.new, errorMessage := none } else o) hmem
      simpa [reprocess_failed_feedbacks, hf] using h1
    · have h1 : it ∈ st.items.filter (fun o => o.status == Status.failed) :=
        List.mem_filter.mpr ⟨hmem, by simp [hf]⟩
      have h2 := List.mem_map_of_mem (fun o : FeedbackItem => o.id) h1
      simp only [reprocess_failed_feedbacks]
      exact List.mem_append_right _ h2
  · intro it hmem hnf
    have h1 := List.mem_map_of_mem (fun o : FeedbackItem =>
      if o.status == Status.failed then
        { o with status := Status.new, errorMessage := none } else o) hmem
    simpa [reprocess_failed_feedbacks, hnf] using h1
  · intro x hx
    simp only [reprocess_failed_feedbacks] at hx
    obtain ⟨o, ho, rfl⟩ := List.mem_map.mp hx
    by_cases hof : o.status = Status.failed
    · right
      exact ⟨o, ho, hof, by simp [hof]⟩
    · left
      simpa [hof] using ho
  · simp [reprocess_failed_feedbacks]

/-! ## Invariant preservation (C3) -/

/-- Membership in the item list after one `save` keyed by `fid`. -/
theorem mem_save (l : List FeedbackItem) (fid : Nat) (u : FeedbackItem)
    (hu : u.id = fid) (x : FeedbackItem)
    (hx : x ∈ l.map (fun o => if o.id == u.id then u else o)) :
    x = u ∨ (x ∈ l ∧ x.id ≠ fid) := by
  obtain ⟨o, ho, rfl⟩ := List.mem_map.mp hx
  by_cases hof : o.id = fid
  · left
    simp [hof, hu]
  · right
    simp only [hu, hof]
    simpa [hof, hu] using ho

/-- Membership in the item list after two `save`s keyed by `fid`. -/
theorem mem_save_save (l : List FeedbackItem) (fid : Nat)
    (u v : FeedbackItem) (hu : u.id = fid) (hv : v.id = fid)
    (x : FeedbackItem)
    (hx : x ∈ (l.map (fun o => if o.id == u.id then u else o)).map
        (fun o => if o.id == v.id then v else o)) :
    x = v ∨ (x ∈ l ∧ x.id ≠ fid) := by
  rw [List.map_map] at hx
  obtain ⟨o, ho, rfl⟩ := List.mem_map.mp hx
  by_cases hof : o.id = fid
  · left
    simp [Function.comp, hof, hu, hv]
  · right
    constructor
    · simpa [Function.comp, hof, hu, hv] using ho
    · simp [Function.comp, hof, hu, hv]

/-- Annotation rows for a key survive the cascade delete when the key is
not among the deleted ids. -/
theorem filter_key_of_not_deleted (l : List (Nat × Annot)) (ids : List Nat)
    (k : Nat) (h : k ∉ ids) :
    (l.filter (fun p => !(ids.contains p.1))).filter (fun p => p.1 == k)
      = l.filter (fun p => p.1 == k) := by
  induction l with
  | nil => rfl
  | cons p l ih =>
    by_cases hk : p.1 = k
    · have hcont : ids.contains p.1 = false := by
        rw [hk]
        simpa using h
      rw [List.filter_cons_of_pos (by simpa using hcont),
        List.filter_cons_of_pos (by simpa using hk),
        List.filter_cons_of_pos (by simpa using hk), ih]
    · by_cases hcont : ids.contains p.1
      · rw [List.filter_cons_of_neg (by simpa using hcont),
          List.filter_cons_of_neg (by simpa using hk), ih]
      · rw [List.filter_cons_of_pos (by simpa using hcont),
          List.filter_cons_of_neg (by simpa using hk),
          List.filter_cons_of_neg (by simpa using hk), ih]

theorem inv_after_success (st : State) (fid : Nat) (it : FeedbackItem)
    (a : Annot) (hInv : Inv st) (hid : it.id = fid) :
    Inv (saveItem (upsertAnnot (saveItem st { it with status := Status.processing })
        fid a)
      { it with status := Status.processed, processedAt := some st.now }) := by
  intro x hx
  have hxx := mem_save_save st.items fid
    ({ it with status := Status.processing })
    ({ it with status := Status.processed, processedAt := some st.now })
    hid hid x hx
  rcases hxx with rfl | ⟨hmem, hne⟩
  · refine ⟨fun _ => ⟨?_, by simp⟩, fun hcontra => (nomatch hcontra)⟩
    show annotCount _ it.id = 1
    rw [show it.id = fid from hid]
    exact annotCount_upsertAnnot_self _ fid a
  · constructor
    · intro hp
      obtain ⟨hc, hts⟩ := (hInv x hmem).1 hp
      refine ⟨?_, hts⟩
      show annotCount (upsertAnnot (saveItem st { it with status := Status.processing })
        fid a) x.id = 1
      rw [annotCount_upsertAnnot_other _ x.id fid a (fun hh => hne hh.symm)]
      exact hc
    · intro hf
      exact (hInv x hmem).2 hf

theorem inv_after_fail (st : State) (fid : Nat) (it : FeedbackItem)
    (e : String) (hInv : Inv st) (hid : it.id = fid) :
    Inv (saveItem (saveItem st { it with status := Status.processing })
      { it with status := Status.failed, errorMessage := some e }) := by
  intro x hx
  have hxx := mem_save_save st.items fid
    ({ it with status := Status.processing })
    ({ it with status := Status.failed, errorMessage := some e })
    hid hid x hx
  rcases hxx with rfl | ⟨hmem, hne⟩
  · exact ⟨fun hcontra => (nomatch hcontra), fun _ => by simp⟩
  · exact hInv x hmem

theorem inv_after_fail_suppressed (st : State) (fid : Nat)
    (it : FeedbackItem) (hInv : Inv st) (hid : it.id = fid) :
    Inv (saveItem st { it with status := Status.processing }) := by
  intro x hx
  have hxx := mem_save st.items fid ({ it with status := Status.processing })
    hid x hx
  rcases hxx with rfl | ⟨hmem, -⟩
  · exact ⟨fun hcontra => (nomatch hcontra), fun hcontra => (nomatch hcontra)⟩
  · exact hInv x hmem

theorem inv_execute (annot : String → Except String Annot) (fs : Bool)
    (st : State) (fid r : Nat) (hInv : Inv st) :
    Inv (process_feedback annot fs st fid r).2 := by
  cases hget : getItem st fid with
  | none =>
    simpa [process_feedback, hget] using hInv
  | some it =>
    have hid : it.id = fid := getItem_id hget
    cases ha : annot it.text with
    | ok a =>
      rw [process_feedback_ok annot fs st fid r it a hget ha]
      exact inv_after_success st fid it a hInv hid
    | error e =>
      cases fs with
      | true =>
        rw [process_feedback_err_failSave annot st fid r it e hget ha]
        have h1 := inv_after_fail_suppressed st fid it hInv hid
        by_cases hr : r + 1 ≤ max_retries
        · rw [if_pos hr]
          exact h1
        · rw [if_neg hr]
          exact h1
      | false =>
        rw [process_feedback_err annot st fid r it e hget ha]
        have h1 := inv_after_fail st fid it e hInv hid
        by_cases hr : r + 1 ≤ max_retries
        · rw [if_pos hr]
          exact h1
        · rw [if_neg hr]
          exact h1

theorem inv_failedSweep (st : State) (hInv : Inv st) :
    Inv (reprocess_failed_feedbacks st) := by
  intro x hx
  simp only [reprocess_failed_feedbacks] at hx
  obtain ⟨o, ho, rfl⟩ := List.mem_map.mp hx
  by_cases hof : o.status = Status.failed
  · simp only [hof]
    exact ⟨fun hcontra => (nomatch hcontra), fun hcontra => (nomatch hcontra)⟩
  · have hb : (o.status == Status.failed) = false := by simp [hof]
    simp only [hb, Bool.false_eq_true, if_false]
    exact hInv o ho

theorem inv_pendingSweep (st : State) (hInv : Inv st) :
    Inv (process_pending_feedbacks st) :=
  fun it hmem => hInv it hmem

theorem inv_purge (st : State) (hWF : WF st) (hInv : Inv st) :
    Inv (cleanup_old_feedbacks st) := by
  intro x hx
  have hx' : x ∈ st.items.filter
      (fun y => !(isOldProcessed (st.now - RETENTION_SECONDS) y)) := hx
  have hmem : x ∈ st.items := (List.mem_filter.mp hx').1
  have hkeep : isOldProcessed (st.now - RETENTION_SECONDS) x = false := by
    have h2 := (List.mem_filter.mp hx').2
    simpa using h2
  constructor
  · intro hp
    obtain ⟨hc, hts⟩ := (hInv x hmem).1 hp
    refine ⟨?_, hts⟩
    have hnotdel : x.id ∉
        (st.items.filter (isOldProcessed (st.now - RETENTION_SECONDS))).map
          (fun y => y.id) := by
      intro hdel
      obtain ⟨y, hy, hyid⟩ := List.mem_map.mp hdel
      have hydel : isOldProcessed (st.now - RETENTION_SECONDS) y = true :=
        (List.mem_filter.mp hy).2
      have hyx : y = x :=
        List.inj_on_of_nodup_map hWF (List.mem_filter.mp hy).1 hmem hyid
      rw [hyx, hkeep] at hydel
      exact nomatch hydel
    show ((st.annots.filter (fun p =>
        !(((st.items.filter (isOldProcessed (st.now - RETENTION_SECONDS))).map
          (fun y => y.id)).contains p.1))).filter (fun p => p.1 == x.id)).length = 1
    rw [filter_key_of_not_deleted st.annots _ x.id hnotdel]
    exact hc
  · intro hf
    exact (hInv x hmem).2 hf

/-- C3: every pipeline operation — an Execute (any annotator outcome, any
retry counter, with or without the injected secondary save failure), the
failed-retry sweep, the purge sweep and the pending sweep — preserves the
invariant that a processed item has exactly one annotation referencing it
and a processed timestamp set, and a failed item has an error message set
(assuming unique primary keys). -/
theorem pipeline_invariant (op : Op) (st : State) (hWF : WF st)
    (hInv : Inv st) : Inv (applyOp op st) := by
  cases op with
  | execute annot fs fid r => exact inv_execute annot fs st fid r hInv
  | failedSweep => exact inv_failedSweep st hInv
  | purgeSweep => exact inv_purge st hWF hInv
  | pendingSweep => exact inv_pendingSweep st hInv

/-- Witness for C3: the concrete one-item store satisfies the invariant,
and it is preserved by a concrete Execute. -/
theorem pipeline_invariant_witness :
    WF stW ∧ Inv stW ∧
    Inv (applyOp (Op.execute (placeholderAnnotator zeroRng) false 1 0) stW) :=
  ⟨by unfold WF; decide, by unfold Inv annotCount; decide,
    pipeline_invariant (Op.execute (placeholderAnnotator zeroRng) false 1 0)
      stW (by unfold WF; decide) (by unfold Inv annotCount; decide)⟩

end Efsilonquest
